import Mathlib

/-!
Verification development for the PLMXML reader (`src/plugins/ReadPlmXml.py`).

The Python module is embedded shallowly:

* raw markup elements become the inductive `Element` (tag, attributes, text,
  children), as produced by the external markup parser;
* every record class (`Transform`, `UserData`, `Part`, `Instance`, ...) becomes a
  Lean structure / inductive together with an `ofElement` constructor; Python
  constructors that can raise are modelled in `Except String`;
* Python `float` values are modelled by exact fractions (`Frac`, an integer
  numerator over a natural denominator).  Every numeric literal appearing in the
  analysed behaviour (matrix cells such as 0 and 1, the 1e-9 tolerance, 3-decimal
  rendering) is exactly representable in binary floating point, so the rational
  model agrees with the Python float semantics on all values the theorems touch.
  The `inf`/`nan` float literals and digit-group underscores accepted by Python's
  `float`/`int` are not modelled;
* the global id map becomes `Registry := String → Option PLMObject`, dict
  insertion being functional override;
* the recursive brief renderer `output_object_recursive` becomes `visitF`, a
  fuel-indexed recursion (`visitChildren` folds a child list through `visitF`).
  The fuel argument is the standard shallow embedding of unbounded recursion;
  `output_as_brief` runs it with fuel `fuelBound`, and the termination theorem
  proves that this fuel is never exhausted, i.e. that the Python recursion
  terminates.  The state `BriefSt` carries the output lines and the visited set
  (`output_objects` in the source); the extra `printed` field is a ghost that
  records, in order, the id of every record line emitted (in the source each
  record print is immediately followed by `output_objects.add`, so `printed`
  mirrors exactly those adds).

String primitives (`split`, `strip`, `endswith`, `int`, `float`, `join`) are
re-implemented over character lists so that concrete runs reduce inside the
kernel.
-/

namespace Plm

/-! ## Python string primitives -/

/-- `suffix.isSuffixOf s`, i.e. Python `s.endswith(suffix)`. -/
def strEndsWith (s suffix : String) : Bool :=
  List.isPrefixOf suffix.data.reverse s.data.reverse

/-- Worker for `pySplit`: accumulates the current (reversed) token. -/
def splitWsGo : List Char → List Char → List String
  | [], acc => if acc.isEmpty then [] else [⟨acc.reverse⟩]
  | c :: cs, acc =>
    if c.isWhitespace then
      if acc.isEmpty then splitWsGo cs [] else ⟨acc.reverse⟩ :: splitWsGo cs []
    else splitWsGo cs (c :: acc)

/-- Python `str.split()` with no argument: split on runs of whitespace,
dropping empty tokens. -/
def pySplit (s : String) : List String := splitWsGo s.data []

/-- Python `str.strip()`: remove leading and trailing whitespace. -/
def pyStrip (s : String) : String :=
  ⟨((s.data.dropWhile Char.isWhitespace).reverse.dropWhile Char.isWhitespace).reverse⟩

/-- Python `sep.join(parts)`. -/
def pyJoin (sep : String) : List String → String
  | [] => ""
  | x :: xs => xs.foldl (fun a b => a ++ sep ++ b) x

/-- Python `"  " * n`, the brief-view indentation. -/
def pyIndent (n : Nat) : String := ⟨List.replicate (2 * n) ' '⟩

/-- Effectful map over a list in `Except`, first error wins (the order in
which a Python list comprehension evaluates and propagates exceptions). -/
def exMapM {a b : Type} (f : a → Except String b) : List a → Except String (List b)
  | [] => Except.ok []
  | x :: l =>
    match f x with
    | Except.error m => Except.error m
    | Except.ok y =>
      match exMapM f l with
      | Except.error m => Except.error m
      | Except.ok ys => Except.ok (y :: ys)

/-- Effectful left fold, first error wins (a Python `for` loop over mutable
state whose body may raise). -/
def exFoldlM {s a e : Type} (f : s → a → Except e s) : s → List a → Except e s
  | init, [] => Except.ok init
  | init, x :: l =>
    match f init x with
    | Except.error m => Except.error m
    | Except.ok s1 => exFoldlM f s1 l

/-- Decimal digit run to a natural number; `none` on a non-digit. -/
def digitsToNat : List Char → Nat → Option Nat
  | [], acc => some acc
  | c :: cs, acc =>
    if c.isDigit then digitsToNat cs (acc * 10 + (c.toNat - 48)) else none

/-- Signed decimal integer from characters (no surrounding whitespace). -/
def pyIntCore : List Char → Option Int
  | '-' :: rest =>
    if rest.isEmpty then none else (digitsToNat rest 0).map (fun n => -(n : Int))
  | '+' :: rest =>
    if rest.isEmpty then none else (digitsToNat rest 0).map (fun n => (n : Int))
  | l => if l.isEmpty then none else (digitsToNat l 0).map (fun n => (n : Int))

/-- Python `int(s)` on a string argument: optional surrounding whitespace,
optional sign, decimal digits; `none` models the `ValueError` raise. -/
def pyInt (s : String) : Option Int := pyIntCore (pyStrip s).data

/-! ## Exact model of Python float values -/

/-- An exact fraction: the value `num / den`.  All fractions produced by the
embedded parser have a positive power of ten as denominator. -/
structure Frac where
  num : Int
  den : Nat
deriving DecidableEq

/-- The rational value of a fraction. -/
def Frac.toRat (f : Frac) : ℚ := (f.num : ℚ) / (f.den : ℚ)

/-- Split a character list at every separator accepted by `p`. -/
def splitOnP (p : Char → Bool) : List Char → List (List Char)
  | [] => [[]]
  | c :: cs =>
    let r := splitOnP p cs
    if p c then [] :: r
    else
      match r with
      | [] => [[c]]
      | h :: t => (c :: h) :: t

/-- Mantissa of a float literal: `digits`, `digits.`, `.digits` or
`digits.digits` (at least one digit in total). -/
def parseMantissa : List Char → Option Frac
  | l =>
    match splitOnP (fun c => c == '.') l with
    | [ip] =>
      if ip.isEmpty then none
      else (digitsToNat ip 0).map (fun n => ⟨(n : Int), 1⟩)
    | [ip, fp] =>
      if ip.isEmpty && fp.isEmpty then none
      else do
        let ipv ← if ip.isEmpty then some 0 else digitsToNat ip 0
        let fpv ← if fp.isEmpty then some 0 else digitsToNat fp 0
        some ⟨((ipv * 10 ^ fp.length + fpv : Nat) : Int), 10 ^ fp.length⟩
    | _ => none

/-- Scale a fraction by `10 ^ e`. -/
def applyExp (f : Frac) (e : Int) : Frac :=
  if 0 ≤ e then ⟨f.num * ((10 ^ e.toNat : Nat) : Int), f.den⟩
  else ⟨f.num, f.den * 10 ^ (-e).toNat⟩

/-- Python `float(s)` on a string argument: optional surrounding whitespace,
optional sign, decimal mantissa, optional `e`/`E` exponent.  `none` models the
`ValueError` raise. -/
def pyFloat (s : String) : Option Frac :=
  let t := (pyStrip s).data
  let body := match t with
    | '-' :: rest => rest
    | '+' :: rest => rest
    | _ => t
  let neg : Bool := match t with
    | '-' :: _ => true
    | _ => false
  let signed : Frac → Frac := fun f => if neg then ⟨-f.num, f.den⟩ else f
  match splitOnP (fun c => c == 'e' || c == 'E') body with
  | [m] => (parseMantissa m).map signed
  | [m, e] => do
    let mv ← parseMantissa m
    let ev ← pyIntCore e
    some (signed (applyExp mv ev))
  | _ => none

/-- Decide `|f - e| > 1e-9` for an integer `e` by cross multiplication;
this is the float comparison `abs(cell - expected) > 1e-9` of the source
(`Frac.farFrom_iff` below relates it to the rational value). -/
def Frac.farFrom (f : Frac) (e : Int) : Bool :=
  (f.num - e * (f.den : Int)).natAbs * 1000000000 > f.den

/-- Round `n / d` (both natural, `d > 0`) to the nearest natural, ties to even,
as Python's fixed-point formatting does. -/
def roundScaledNat (n d : Nat) : Nat :=
  let q := n / d
  let r := n % d
  if 2 * r < d then q
  else if d < 2 * r then q + 1
  else if q % 2 = 0 then q else q + 1

/-- Round `num / den` to the nearest integer, ties to even. -/
def roundScaled (num : Int) (den : Nat) : Int :=
  if 0 ≤ num then (roundScaledNat num.toNat den : Int)
  else -((roundScaledNat (-num).toNat den : Int))

/-- Left-pad a natural below 1000 to three digits. -/
def natPad3 (m : Nat) : String :=
  if m < 10 then "00" ++ toString m
  else if m < 100 then "0" ++ toString m
  else toString m

/-- Python `f"{val:.3f}"` on the exact value `f`: fixed three decimal places.
(The sign of a negative value that rounds to zero is dropped, which cannot
happen for the values the theorems touch.) -/
def formatFixed3 (f : Frac) : String :=
  let s := roundScaled (1000 * f.num) f.den
  let a := s.natAbs
  (if s < 0 then "-" else "") ++ toString (a / 1000) ++ "." ++ natPad3 (a % 1000)

/-! ## Raw markup elements -/

/-- A raw markup element, as exposed by the external, conforming markup
parser: a tag name, ordered attributes, inline text content and ordered
children. -/
inductive Element where
  | mk (tag : String) (attrs : List (String × String)) (text : Option String)
      (children : List Element)

def Element.tag : Element → String
  | .mk t _ _ _ => t

def Element.attrs : Element → List (String × String)
  | .mk _ a _ _ => a

def Element.text : Element → Option String
  | .mk _ _ tx _ => tx

def Element.children : Element → List Element
  | .mk _ _ _ cs => cs

/-- `element.get(key)`: the attribute value, or `None` when absent. -/
def Element.get (e : Element) (key : String) : Option String :=
  (e.attrs.find? (fun p => p.1 == key)).map (fun p => p.2)

/-! ## Leaf record classes (`ReadPlmXml.py` lines 8-97) -/

/-- `class Transform`: an id and the matrix parsed from the text content. -/
structure Transform where
  id : Option String
  matrix : List (List Frac)
deriving DecidableEq

/-- The token list of `Transform.__init__`:
`[x for x in text_content.split() if x.strip()]` (the inner `strip` filter is
kept although `split()` never yields whitespace-only tokens). -/
def transformTokens (e : Element) : List String :=
  (pySplit (e.text.getD "")).filter (fun x => pyStrip x != "")

/-- `Transform.__init__`: convert every token with `float` (a failure raises),
then reshape with `[float_values[i:i+4] for i in range(0, 16, 4)]`.  Note that
no length check happens: fewer than 16 values yields short rows, extra values
beyond 16 are dropped. -/
def Transform.ofElement (e : Element) : Except String Transform :=
  match exMapM (fun x =>
    match pyFloat x with
    | some v => Except.ok v
    | none => Except.error ("ValueError: could not convert string to float: " ++ x))
    (transformTokens e) with
  | Except.error m => Except.error m
  | Except.ok float_values =>
    Except.ok ⟨e.get "id", [0, 4, 8, 12].map (fun i => (float_values.drop i).take 4)⟩

/-- `self.matrix[i][j]`; `none` becomes an `IndexError` at the use sites. -/
def matCell (m : List (List Frac)) (i j : Nat) : Except String Frac :=
  match m[i]? with
  | none => Except.error "IndexError: list index out of range"
  | some row =>
    match row[j]? with
    | none => Except.error "IndexError: list index out of range"
    | some v => Except.ok v

/-- The cell order `(i, j)` for `i in range(4) for j in range(4)`. -/
def identityPairs : List (Nat × Nat) :=
  (List.range 4).flatMap (fun i => (List.range 4).map (fun j => (i, j)))

/-- The identity test of `matrix_as_string`: scan the cells in order and stop
at the first one farther than `1e-9` from the identity matrix (mirroring the
double `break`). -/
def identityScan (m : List (List Frac)) : List (Nat × Nat) → Except String Bool
  | [] => Except.ok true
  | (i, j) :: rest =>
    match matCell m i j with
    | Except.error msg => Except.error msg
    | Except.ok v =>
      if v.farFrom (if i = j then 1 else 0) then Except.ok false
      else identityScan m rest

/-- `Transform.matrix_as_string`: `"Identity"` for a within-tolerance identity
matrix, otherwise the 16 cells row-major with three decimals in brackets; an
empty (falsy) matrix renders as `"[]"`.  Errors model the `IndexError` a ragged
matrix raises. -/
def Transform.matrix_as_string (t : Transform) : Except String String :=
  if t.matrix.isEmpty then Except.ok "[]"
  else
    match identityScan t.matrix identityPairs with
    | Except.error msg => Except.error msg
    | Except.ok is_identity =>
      if is_identity then Except.ok "Identity"
      else Except.ok ("[" ++ pyJoin " " (t.matrix.flatten.map formatFixed3) ++ "]")

/-- `class UserValue`. -/
structure UserValue where
  title : Option String
  value : Option String
deriving DecidableEq

def UserValue.ofElement (e : Element) : UserValue :=
  ⟨e.get "title", e.get "value"⟩

/-- `class UserData`. -/
structure UserData where
  type : Option String
  user_values : List UserValue
deriving DecidableEq

def UserData.ofElement (e : Element) : UserData :=
  ⟨e.get "type",
    (e.children.filter (fun c => strEndsWith c.tag "UserValue")).map UserValue.ofElement⟩

/-- `class Column`: `int(element.get('col'))` raises on an absent or
non-integer attribute. -/
structure Column where
  col : Int
  value : Option String
deriving DecidableEq

def Column.ofElement (e : Element) : Except String Column := do
  let colv ← match e.get "col" with
    | none => Except.error "TypeError: int() argument must be a string, not NoneType"
    | some s =>
      match pyInt s with
      | some n => Except.ok n
      | none => Except.error ("ValueError: invalid literal for int: " ++ s)
  Except.ok ⟨colv, e.get "value"⟩

/-- `class Row`. -/
structure Row where
  columns : List Column
deriving DecidableEq

def Row.ofElement (e : Element) : Except String Row :=
  match exMapM Column.ofElement (e.children.filter (fun c => strEndsWith c.tag "Column")) with
  | Except.error m => Except.error m
  | Except.ok cols => Except.ok ⟨cols⟩

/-- `class TableAttribute`. -/
structure TableAttribute where
  definition_ref : Option String
  rows : List Row
deriving DecidableEq

def TableAttribute.ofElement (e : Element) : Except String TableAttribute :=
  match exMapM Row.ofElement (e.children.filter (fun c => strEndsWith c.tag "Row")) with
  | Except.error m => Except.error m
  | Except.ok rows => Except.ok ⟨e.get "definitionRef", rows⟩

/-! ## Identified record classes (lines 99-398)

Every class below inherits `BaseObject`, whose constructor stores
`element.get('id')`; the `id` field plays that role here. -/

/-- `class GeneralObject`. -/
structure GeneralObject where
  id : Option String
  class_name : Option String
  user_data : List UserData
deriving DecidableEq

def GeneralObject.ofElement (e : Element) : GeneralObject :=
  ⟨e.get "id", e.get "class",
    (e.children.filter (fun c => strEndsWith c.tag "UserData")).map UserData.ofElement⟩

/-- `class CompoundRep`. -/
structure CompoundRep where
  id : Option String
  format : Option String
  location : Option String
  name : Option String
  transform : Option Transform
  user_data : List UserData
  table_attribute : Option TableAttribute
deriving DecidableEq

def compoundRepChildStep (acc : Option Transform × List UserData × Option TableAttribute)
    (child : Element) : Except String (Option Transform × List UserData × Option TableAttribute) :=
  if strEndsWith child.tag "Transform" then
    match Transform.ofElement child with
    | Except.error m => Except.error m
    | Except.ok t => Except.ok (some t, acc.2.1, acc.2.2)
  else if strEndsWith child.tag "UserData" then
    Except.ok (acc.1, acc.2.1 ++ [UserData.ofElement child], acc.2.2)
  else if strEndsWith child.tag "TableAttribute" then
    match TableAttribute.ofElement child with
    | Except.error m => Except.error m
    | Except.ok ta => Except.ok (acc.1, acc.2.1, some ta)
  else Except.ok acc

def CompoundRep.ofElement (e : Element) : Except String CompoundRep :=
  match exFoldlM compoundRepChildStep (none, [], none) e.children with
  | Except.error m => Except.error m
  | Except.ok acc =>
    Except.ok ⟨e.get "id", e.get "format", e.get "location", e.get "name",
      acc.1, acc.2.1, acc.2.2⟩

/-- `class Representation`. -/
structure Representation where
  id : Option String
  format : Option String
  compound_reps : List CompoundRep
deriving DecidableEq

def Representation.ofElement (e : Element) : Except String Representation :=
  match exMapM CompoundRep.ofElement (e.children.filter (fun c => strEndsWith c.tag "CompoundRep")) with
  | Except.error m => Except.error m
  | Except.ok crs => Except.ok ⟨e.get "id", e.get "format", crs⟩

/-- The nomenclature derivation shared by `Part.__init__` and
`Instance.__init__` (lines 131-139 and 225-233): scan the UserData blocks in
order; in each block take the first UserValue titled `Nomenclature` (inner
`break`); stop at the first one whose value is not `None` (the outer loop
breaks only when `self.nomenclature is not None`). -/
def scanNomenclature : List UserData → Option String
  | [] => none
  | ud :: rest =>
    match ud.user_values.find? (fun uv => uv.title == some "Nomenclature") with
    | some uv =>
      match uv.value with
      | some v => some v
      | none => scanNomenclature rest
    | none => scanNomenclature rest

/-! ### Part, Instance, Relation and the registry record sum

`Part.child_objects`, `Instance.part_references` and `Relation.related_objects`
are filled by the resolution pass with registry records, which may themselves
be Parts, Instances, GeneralObjects, Relations or CompoundReps; hence the
mutual definition with the sum `PLMObject` of registrable records. -/

mutual

inductive Part where
  | mk : (id name representation_refs instance_refs : Option String) →
      (representation : Option Representation) → (user_data : List UserData) →
      (table_attribute : Option TableAttribute) → (child_objects : List PLMObject) →
      (nomenclature : Option String) → Part

inductive Instance where
  | mk : (id part_ref : Option String) → (quantity : Int) →
      (transform : Option Transform) → (user_data : List UserData) →
      (part_references : List PLMObject) → (nomenclature : Option String) → Instance

inductive Relation where
  | mk : (id related_refs sub_type : Option String) → (user_data : List UserData) →
      (related_objects : List PLMObject) → Relation

inductive PLMObject where
  | part : Part → PLMObject
  | inst : Instance → PLMObject
  | genObj : GeneralObject → PLMObject
  | rel : Relation → PLMObject
  | compoundRep : CompoundRep → PLMObject

end

def Part.id : Part → Option String
  | .mk i _ _ _ _ _ _ _ _ => i

def Part.name : Part → Option String
  | .mk _ n _ _ _ _ _ _ _ => n

def Part.representation_refs : Part → Option String
  | .mk _ _ rr _ _ _ _ _ _ => rr

def Part.instance_refs : Part → Option String
  | .mk _ _ _ ir _ _ _ _ _ => ir

def Part.representation : Part → Option Representation
  | .mk _ _ _ _ r _ _ _ _ => r

def Part.user_data : Part → List UserData
  | .mk _ _ _ _ _ ud _ _ _ => ud

def Part.table_attribute : Part → Option TableAttribute
  | .mk _ _ _ _ _ _ ta _ _ => ta

def Part.child_objects : Part → List PLMObject
  | .mk _ _ _ _ _ _ _ co _ => co

def Part.nomenclature : Part → Option String
  | .mk _ _ _ _ _ _ _ _ nom => nom

def Instance.id : Instance → Option String
  | .mk i _ _ _ _ _ _ => i

def Instance.part_ref : Instance → Option String
  | .mk _ pr _ _ _ _ _ => pr

def Instance.quantity : Instance → Int
  | .mk _ _ q _ _ _ _ => q

def Instance.transform : Instance → Option Transform
  | .mk _ _ _ t _ _ _ => t

def Instance.user_data : Instance → List UserData
  | .mk _ _ _ _ ud _ _ => ud

def Instance.part_references : Instance → List PLMObject
  | .mk _ _ _ _ _ prs _ => prs

def Instance.nomenclature : Instance → Option String
  | .mk _ _ _ _ _ _ nom => nom

def Relation.id : Relation → Option String
  | .mk i _ _ _ _ => i

def Relation.related_refs : Relation → Option String
  | .mk _ rr _ _ _ => rr

def Relation.sub_type : Relation → Option String
  | .mk _ _ st _ _ => st

def Relation.user_data : Relation → List UserData
  | .mk _ _ _ ud _ => ud

def Relation.related_objects : Relation → List PLMObject
  | .mk _ _ _ _ ro => ro

/-- The `id` attribute every `BaseObject` subclass carries
(`hasattr(obj, 'id')` holds for all five registrable kinds). -/
def PLMObject.oid : PLMObject → Option String
  | .part p => p.id
  | .inst i => i.id
  | .genObj g => g.id
  | .rel r => r.id
  | .compoundRep c => c.id

/-- `Part.__init__` (lines 109-139): attributes, dispatched children
(`Representation` and `TableAttribute` last-one-wins, `UserData` appended in
order), `child_objects` initialised empty, nomenclature derived at once. -/
def partChildStep (acc : Option Representation × List UserData × Option TableAttribute)
    (child : Element) : Except String (Option Representation × List UserData × Option TableAttribute) :=
  if strEndsWith child.tag "Representation" then
    match Representation.ofElement child with
    | Except.error m => Except.error m
    | Except.ok r => Except.ok (some r, acc.2.1, acc.2.2)
  else if strEndsWith child.tag "UserData" then
    Except.ok (acc.1, acc.2.1 ++ [UserData.ofElement child], acc.2.2)
  else if strEndsWith child.tag "TableAttribute" then
    match TableAttribute.ofElement child with
    | Except.error m => Except.error m
    | Except.ok ta => Except.ok (acc.1, acc.2.1, some ta)
  else Except.ok acc

def Part.ofElement (e : Element) : Except String Part :=
  match exFoldlM partChildStep (none, [], none) e.children with
  | Except.error m => Except.error m
  | Except.ok acc =>
    Except.ok (Part.mk (e.get "id") (e.get "name") (e.get "representationRefs")
      (e.get "instanceRefs") acc.1 acc.2.1 acc.2.2 [] (scanNomenclature acc.2.1))

/-- `Instance.__init__` (lines 206-233): `quantity` is
`int(element.get('quantity', 1)) if element.get('quantity') else 1`, so a
missing or empty (falsy) attribute yields 1 and a present non-empty attribute
is parsed by `int` (raising on a malformed value); children are dispatched
(`Transform` last-one-wins, `UserData` appended); `part_references` starts
empty; nomenclature is derived at once. -/
def instanceQuantity (e : Element) : Except String Int :=
  match e.get "quantity" with
  | none => Except.ok 1
  | some s =>
    if s = "" then Except.ok 1
    else
      match pyInt s with
      | some n => Except.ok n
      | none => Except.error ("ValueError: invalid literal for int: " ++ s)

def instanceChildStep (acc : Option Transform × List UserData) (child : Element) :
    Except String (Option Transform × List UserData) :=
  if strEndsWith child.tag "Transform" then
    match Transform.ofElement child with
    | Except.error m => Except.error m
    | Except.ok t => Except.ok (some t, acc.2)
  else if strEndsWith child.tag "UserData" then
    Except.ok (acc.1, acc.2 ++ [UserData.ofElement child])
  else Except.ok acc

def Instance.ofElement (e : Element) : Except String Instance :=
  match instanceQuantity e with
  | Except.error m => Except.error m
  | Except.ok quantity =>
    match exFoldlM instanceChildStep (none, []) e.children with
    | Except.error m => Except.error m
    | Except.ok acc =>
      Except.ok (Instance.mk (e.get "id") (e.get "partRef") quantity acc.1 acc.2 []
        (scanNomenclature acc.2))

/-- `Relation.__init__` (lines 264-272). -/
def Relation.ofElement (e : Element) : Relation :=
  Relation.mk (e.get "id") (e.get "relatedRefs") (e.get "subType")
    ((e.children.filter (fun c => strEndsWith c.tag "UserData")).map UserData.ofElement) []

/-! ## Container records and the document root (lines 286-429) -/

/-- `class Context`. -/
structure Context where
  id : Option String
  ref_config : Option String
deriving DecidableEq

def Context.ofElement (e : Element) : Context :=
  ⟨e.get "id", e.get "refConfig"⟩

/-- `class Contexts`: keeps the last `Context` child. -/
structure Contexts where
  context : Option Context
deriving DecidableEq

def Contexts.ofElement (e : Element) : Contexts :=
  ⟨e.children.foldl (fun acc child =>
    if strEndsWith child.tag "Context" then some (Context.ofElement child) else acc) none⟩

/-- `class TableAttributeDefinition`. -/
structure TableAttributeDefinition where
  id : Option String
  columns : List Column
deriving DecidableEq

def TableAttributeDefinition.ofElement (e : Element) : Except String TableAttributeDefinition :=
  match exMapM Column.ofElement (e.children.filter (fun c => strEndsWith c.tag "Column")) with
  | Except.error m => Except.error m
  | Except.ok cols => Except.ok ⟨e.get "id", cols⟩

/-- `class Definitions`. -/
structure Definitions where
  table_attribute_definitions : List TableAttributeDefinition
deriving DecidableEq

def Definitions.ofElement (e : Element) : Except String Definitions :=
  match exMapM TableAttributeDefinition.ofElement
    (e.children.filter (fun c => strEndsWith c.tag "TableAttributeDefinition")) with
  | Except.error m => Except.error m
  | Except.ok tads => Except.ok ⟨tads⟩

/-- `class Header`. -/
structure Header where
  author : Option String
  creation_date : Option String
  definition : Option String
  extension_version : Option String
  smaragd_version : Option String
  user_data : List UserData
  contexts : Option Contexts
  definitions : Option Definitions
deriving DecidableEq

def headerChildStep (acc : List UserData × Option Contexts × Option Definitions)
    (child : Element) : Except String (List UserData × Option Contexts × Option Definitions) :=
  if strEndsWith child.tag "UserData" then
    Except.ok (acc.1 ++ [UserData.ofElement child], acc.2.1, acc.2.2)
  else if strEndsWith child.tag "Contexts" then
    Except.ok (acc.1, some (Contexts.ofElement child), acc.2.2)
  else if strEndsWith child.tag "Definitions" then
    match Definitions.ofElement child with
    | Except.error m => Except.error m
    | Except.ok d => Except.ok (acc.1, acc.2.1, some d)
  else Except.ok acc

def Header.ofElement (e : Element) : Except String Header :=
  match exFoldlM headerChildStep ([], none, none) e.children with
  | Except.error m => Except.error m
  | Except.ok acc =>
    Except.ok ⟨e.get "author", e.get "creationDate", e.get "definition",
      e.get "extensionVersion", e.get "smaragdVersion", acc.1, acc.2.1, acc.2.2⟩

/-- `class InstanceGraph` (lines 370-385): the root-reference string and the
four identifier-carrying collections, filtered from the children by tag
suffix, in document order. -/
structure InstanceGraph where
  root_refs : Option String
  instances : List Instance
  parts : List Part
  general_objects : List GeneralObject
  relations : List Relation

def InstanceGraph.ofElement (e : Element) : Except String InstanceGraph :=
  match exMapM Instance.ofElement (e.children.filter (fun c => strEndsWith c.tag "Instance")) with
  | Except.error m => Except.error m
  | Except.ok insts =>
    match exMapM Part.ofElement (e.children.filter (fun c => strEndsWith c.tag "Part")) with
    | Except.error m => Except.error m
    | Except.ok parts =>
      Except.ok ⟨e.get "rootRefs", insts, parts,
        (e.children.filter (fun c => strEndsWith c.tag "GeneralObject")).map GeneralObject.ofElement,
        (e.children.filter (fun c => strEndsWith c.tag "Relation")).map Relation.ofElement⟩

/-- `class ProductDef`: keeps the last `InstanceGraph` child. -/
structure ProductDef where
  instance_graph : Option InstanceGraph

def ProductDef.ofElement (e : Element) : Except String ProductDef :=
  match exFoldlM (fun (acc : Option InstanceGraph) child =>
    if strEndsWith child.tag "InstanceGraph" then
      match InstanceGraph.ofElement child with
      | Except.error m => Except.error m
      | Except.ok g => Except.ok (some g)
    else Except.ok acc) none e.children with
  | Except.error m => Except.error m
  | Except.ok ig => Except.ok ⟨ig⟩

/-- `class PLMXML` (lines 400-429): the document root.
`float(element.get('schemaVersion'))` raises `TypeError` when the attribute is
absent (`float(None)`) and `ValueError` when it is not a number. -/
structure PLMXML where
  author : Option String
  date : Option String
  schema_version : Frac
  time : Option String
  schema_location : Option String
  product_def : Option ProductDef
  header : Option Header

def plmxmlChildStep (acc : Option ProductDef × Option Header) (child : Element) :
    Except String (Option ProductDef × Option Header) :=
  if strEndsWith child.tag "ProductDef" then
    match ProductDef.ofElement child with
    | Except.error m => Except.error m
    | Except.ok pd => Except.ok (some pd, acc.2)
  else if strEndsWith child.tag "Header" then
    match Header.ofElement child with
    | Except.error m => Except.error m
    | Except.ok h => Except.ok (acc.1, some h)
  else Except.ok acc

def PLMXML.ofElement (e : Element) : Except String PLMXML :=
  match (match e.get "schemaVersion" with
    | none =>
      Except.error "TypeError: float() argument must be a string or a real number, not NoneType"
    | some s =>
      match pyFloat s with
      | some v => Except.ok v
      | none => Except.error ("ValueError: could not convert string to float: " ++ s)) with
  | Except.error m => Except.error m
  | Except.ok sv =>
    match exFoldlM plmxmlChildStep (none, none) e.children with
    | Except.error m => Except.error m
    | Except.ok acc =>
      Except.ok ⟨e.get "author", e.get "date", sv, e.get "time",
        e.get "\x7bhttp://www.w3.org/2001/XMLSchema-instance\x7dschemaLocation",
        acc.1, acc.2⟩

/-! ## Registry and reference resolution (`parse_plmxml`, lines 431-485) -/

/-- The global `id_to_object_map`, modelled as Python dict lookup. -/
abbrev Registry := String → Option PLMObject

/-- Dict insertion `id_to_object_map[obj.id] = obj`. -/
def registryInsert (m : Registry) (k : String) (v : PLMObject) : Registry :=
  fun s => if s = k then some v else m s

/-- `add_to_map(obj_list)`: insert each object whose `id` is truthy (present
and non-empty). -/
def add_to_map (m : Registry) (objs : List PLMObject) : Registry :=
  objs.foldl (fun acc obj =>
    match obj.oid with
    | some s => if s = "" then acc else registryInsert acc s obj
    | none => acc) m

/-- The full registration sequence: instances, parts, general objects and
relations, then the CompoundReps owned through each Part's Representation
(the order of the `add_to_map` calls in `parse_plmxml`). -/
def regSeq (g : InstanceGraph) : List PLMObject :=
  g.instances.map PLMObject.inst ++ g.parts.map PLMObject.part ++
    g.general_objects.map PLMObject.genObj ++ g.relations.map PLMObject.rel ++
    (g.parts.filterMap Part.representation).flatMap
      (fun rep => rep.compound_reps.map PLMObject.compoundRep)

/-- The registry build of `parse_plmxml` (lines 441-462): four `add_to_map`
calls over the graph collections, then one per Part representation's compound
reps (the inner `if rep:` of the source is always true after the comprehension
filter and is therefore dropped). -/
def buildMap (g : InstanceGraph) : Registry :=
  let m := add_to_map (fun _ => none) (g.instances.map PLMObject.inst)
  let m := add_to_map m (g.parts.map PLMObject.part)
  let m := add_to_map m (g.general_objects.map PLMObject.genObj)
  let m := add_to_map m (g.relations.map PLMObject.rel)
  (g.parts.filterMap Part.representation).foldl
    (fun acc rep => add_to_map acc (rep.compound_reps.map PLMObject.compoundRep)) m

/-- Resolution of one Instance (lines 466-469): when `partRef` is truthy,
split it on whitespace and keep the registry hits in token order
(`[id_to_object_map[ref] for ref in refs if ref in id_to_object_map]`). -/
def Instance.resolve (reg : Registry) : Instance → Instance
  | Instance.mk i pr q tr ud prs nom =>
    match pr with
    | some s =>
      if s = "" then Instance.mk i pr q tr ud prs nom
      else Instance.mk i pr q tr ud ((pySplit s).filterMap reg) nom
    | none => Instance.mk i pr q tr ud prs nom

/-- Resolution of one Relation (lines 473-476), same rule over `relatedRefs`. -/
def Relation.resolve (reg : Registry) : Relation → Relation
  | Relation.mk i rr st ud ro =>
    match rr with
    | some s =>
      if s = "" then Relation.mk i rr st ud ro
      else Relation.mk i rr st ud ((pySplit s).filterMap reg)
    | none => Relation.mk i rr st ud ro

/-- Resolution of one Part (lines 480-483), same rule over `instanceRefs`. -/
def Part.resolve (reg : Registry) : Part → Part
  | Part.mk i n rr ir r ud ta co nom =>
    match ir with
    | some s =>
      if s = "" then Part.mk i n rr ir r ud ta co nom
      else Part.mk i n rr ir r ud ta ((pySplit s).filterMap reg) nom
    | none => Part.mk i n rr ir r ud ta co nom

/-- The whole resolution pass of `parse_plmxml` (lines 464-485) over one
instance graph. -/
def resolvePass (reg : Registry) (g : InstanceGraph) : InstanceGraph :=
  { g with
    instances := g.instances.map (Instance.resolve reg)
    relations := g.relations.map (Relation.resolve reg)
    parts := g.parts.map (Part.resolve reg) }

/-- `parse_plmxml` on an already-tokenized root element (raw markup
tokenization is delegated to the external parser): build the typed records,
build the global id map, resolve references. -/
def parse_plmxml (root : Element) : Except String PLMXML :=
  match PLMXML.ofElement root with
  | Except.error m => Except.error m
  | Except.ok plmxml =>
  match plmxml.product_def with
  | some pd =>
    match pd.instance_graph with
    | some graph =>
      let graph := resolvePass (buildMap graph) graph
      Except.ok { plmxml with product_def := some { pd with instance_graph := some graph } }
    | none => Except.ok plmxml
  | none => Except.ok plmxml

/-! ## The brief ("hierarchical") renderer (`output_as_brief`, lines 500-641) -/

/-- Python truthiness of an optional string attribute. -/
def pyTruthy : Option String → Bool
  | none => false
  | some s => s != ""

/-- Interpolation of an optional string into an f-string (`None` prints as
`"None"`). -/
def pyStrOpt : Option String → String
  | none => "None"
  | some s => s

/-- Last-wins dict built from a record list keyed by the record's `id`
(`{x.id: x for x in l}`), looked up at `k`.  The key may be `None`, exactly as
in Python where an id-less record contributes a `None` key. -/
def lookupLast {α : Type} (idOf : α → Option String) (l : List α) (k : Option String) : Option α :=
  l.reverse.find? (fun x => idOf x == k)

/-- The representations reachable for `repr_map`: one per Part that has one,
in part order. -/
def reprList (g : InstanceGraph) : List Representation :=
  g.parts.filterMap Part.representation

/-- The compound reps reachable for `compound_rep_map`. -/
def compoundRepList (g : InstanceGraph) : List CompoundRep :=
  (reprList g).flatMap Representation.compound_reps

/-- Every id value the traversal can ever add to the visited set. -/
def allIds (g : InstanceGraph) : List (Option String) :=
  g.parts.map Part.id ++ g.instances.map Instance.id ++
    (reprList g).map Representation.id ++ (compoundRepList g).map CompoundRep.id

/-- Errors of the embedded renderer: `fuel` marks exhausted recursion fuel
(proved unreachable below), `render` carries a Python exception raised while
rendering (the `IndexError` of a ragged matrix). -/
inductive BriefErr where
  | fuel
  | render (msg : String)
deriving DecidableEq

/-- Traversal state: the accumulated `output_lines`, the visited set
`output_objects` (insertion order kept), and the ghost trace `printed` of ids
whose record line has been emitted. -/
structure BriefSt where
  output_lines : List String
  visited : List (Option String)
  printed : List (Option String)
deriving DecidableEq

/-- The one-line rendering of a Part (lines 542-549). -/
def partLine (ind : Nat) (p : Part) : String :=
  pyIndent ind ++ "Part: id=" ++ pyStrOpt p.id ++
    (if pyTruthy p.instance_refs then ", instanceRefs=" ++ pyStrOpt p.instance_refs else "") ++
    (if pyTruthy p.representation_refs then
      ", representationRefs=" ++ pyStrOpt p.representation_refs else "") ++
    (if pyTruthy p.nomenclature then ", nomenclature=" ++ pyStrOpt p.nomenclature else "")

/-- The one-line rendering of an Instance (lines 570-575). -/
def instanceLine (ind : Nat) (i : Instance) : String :=
  pyIndent ind ++ "Instance: id=" ++ pyStrOpt i.id ++
    (if pyTruthy i.part_ref then ", partRef=" ++ pyStrOpt i.part_ref else "") ++
    (if pyTruthy i.nomenclature then ", nomenclature=" ++ pyStrOpt i.nomenclature else "")

/-- The nested Transform line (lines 581-584 and 618-621): rendering the
matrix can raise on a ragged matrix. -/
def transformLine (ind : Nat) (t : Transform) : Except String String :=
  if t.matrix.isEmpty then Except.ok (pyIndent ind ++ "  Transform: id=" ++ pyStrOpt t.id)
  else
    match t.matrix_as_string with
    | Except.error m => Except.error m
    | Except.ok ms =>
      Except.ok (pyIndent ind ++ "  Transform: id=" ++ pyStrOpt t.id ++ ", matrix=" ++ ms)

/-- The one-line rendering of a Representation (line 596). -/
def reprLine (ind : Nat) (r : Representation) : String :=
  pyIndent ind ++ "Representation: id=" ++ pyStrOpt r.id

/-- The one-line rendering of a CompoundRep (lines 608-612). -/
def crLine (ind : Nat) (c : CompoundRep) : String :=
  pyIndent ind ++ "CompoundRep: id=" ++ pyStrOpt c.id ++
    (if pyTruthy c.location then ", location=" ++ pyStrOpt c.location else "") ++
    (if pyTruthy c.name then ", name=" ++ pyStrOpt c.name else "")

/-- The flat trailing Relation line (lines 636-638). -/
def relationLine (r : Relation) : String :=
  "Relation: id=" ++ pyStrOpt r.id ++
    (if pyTruthy r.related_refs then ", relatedRefs=" ++ pyStrOpt r.related_refs else "")

/-- The ids a Part recurses into from `child_objects`: only Instance, Part and
CompoundRep children are followed (the `isinstance` chain of lines 559-565). -/
def briefChildId : PLMObject → Option (Option String)
  | PLMObject.inst i => some i.id
  | PLMObject.part p => some p.id
  | PLMObject.compoundRep c => some c.id
  | _ => none

/-- Append a record line and mark its id visited (each source `append` is
immediately followed by `output_objects.add`). -/
def BriefSt.put (st : BriefSt) (line : String) (oid : Option String) : BriefSt :=
  ⟨st.output_lines ++ [line], st.visited ++ [oid], st.printed ++ [oid]⟩

/-- Append a plain extra line (the nested Transform lines, which are not
visited-checked). -/
def BriefSt.putLine (st : BriefSt) (line : String) : BriefSt :=
  ⟨st.output_lines ++ [line], st.visited, st.printed⟩

/-- `output_object_recursive(obj_id, indent_level)` (lines 532-621), with the
explicit recursion fuel of the shallow embedding.  The priority of the lookup
maps (Part, then Instance, then Representation, then CompoundRep), the global
visited check on entry, the redundant re-checks inside the Representation and
CompoundRep branches, and the recursion targets are all mirrored from the
source. -/
def visitF (g : InstanceGraph) : Nat → Option String → Nat → BriefSt → Except BriefErr BriefSt
  | 0, _, _, _ => Except.error BriefErr.fuel
  | f + 1, objId, ind, st =>
    if objId ∈ st.visited then Except.ok st
    else
      match lookupLast Part.id g.parts objId with
      | some part =>
        let st1 := st.put (partLine ind part) objId
        let kids := (match part.representation with
          | some r => [r.id]
          | none => []) ++ part.child_objects.filterMap briefChildId
        exFoldlM (fun s k => visitF g f k (ind + 1) s) st1 kids
      | none =>
        match lookupLast Instance.id g.instances objId with
        | some inst =>
          let st1 := st.put (instanceLine ind inst) objId
          let st2E := match inst.transform with
            | some t =>
              match transformLine ind t with
              | Except.ok line => Except.ok (st1.putLine line)
              | Except.error m => Except.error (BriefErr.render m)
            | none => Except.ok st1
          match st2E with
          | Except.error err => Except.error err
          | Except.ok st2 =>
            let kids := if pyTruthy inst.part_ref then
              (pySplit (pyStrOpt inst.part_ref)).map some else []
            exFoldlM (fun s k => visitF g f k (ind + 1) s) st2 kids
        | none =>
          match lookupLast Representation.id (reprList g) objId with
          | some robj =>
            if robj.id ∈ st.visited then Except.ok st
            else
              let st1 := st.put (reprLine ind robj) robj.id
              exFoldlM (fun s k => visitF g f k (ind + 1) s) st1
                (robj.compound_reps.map CompoundRep.id)
          | none =>
            match lookupLast CompoundRep.id (compoundRepList g) objId with
            | some cobj =>
              if cobj.id ∈ st.visited then Except.ok st
              else
                let st1 := st.put (crLine ind cobj) cobj.id
                match cobj.transform with
                | some t =>
                  match transformLine ind t with
                  | Except.ok line => Except.ok (st1.putLine line)
                  | Except.error m => Except.error (BriefErr.render m)
                | none => Except.ok st1
            | none => Except.ok st

/-- Fuel sufficient for the whole walk: non-returning recursive calls are
nested at most `(allIds g).length` deep. -/
def fuelBound (g : InstanceGraph) : Nat := (allIds g).length + 1

/-- The root loop `for root_id in root_ids: output_object_recursive(root_id, 0)`
starting from an empty visited set. -/
def briefWalk (g : InstanceGraph) (rootIds : List (Option String)) (lines0 : List String) :
    Except BriefErr BriefSt :=
  exFoldlM (fun s k => visitF g (fuelBound g) k 0 s) ⟨lines0, [], []⟩ rootIds

/-- The optional Header line emitted first (lines 507-508). -/
def headerLines (p : PLMXML) : List String :=
  match p.header with
  | some h => ["Header: author=" ++ pyStrOpt h.author]
  | none => []

/-- `output_as_brief` (lines 500-641): optional Header line, then — when a
ProductDef with an InstanceGraph exists — the InstanceGraph line, the
hierarchical walk from the whitespace-split `rootRefs` (an empty root set when
the attribute is falsy), and the flat trailing Relation list. -/
def output_as_brief (p : PLMXML) : Except BriefErr String :=
  let lines0 : List String := headerLines p
  match p.product_def.bind ProductDef.instance_graph with
  | some graph =>
    let igLine := "InstanceGraph: rootRefs=" ++ pyStrOpt graph.root_refs
    let rootIds := if pyTruthy graph.root_refs then
      (pySplit (pyStrOpt graph.root_refs)).map some else []
    match briefWalk graph rootIds (lines0 ++ [igLine]) with
    | Except.error err => Except.error err
    | Except.ok st =>
      Except.ok (pyJoin "\n" (st.output_lines ++ graph.relations.map relationLine))
  | none => Except.ok (pyJoin "\n" lines0)

/-! ## Definitions used by the analysis

Spec-side formulations, invariants of the traversal, and the concrete inputs
the examples and witnesses run on. -/

/-- Modelled from the specification's words for the nomenclature rule: the
value of the first UserValue whose title equals `Nomenclature`, scanning the
UserData blocks in order and each block's UserValues in order, first match
winning (to be compared with the source's `scanNomenclature`). -/
def specNomenclatureFirstMatch (uds : List UserData) : Option String :=
  ((uds.flatMap UserData.user_values).find?
    (fun uv => uv.title == some "Nomenclature")).bind UserValue.value

/-- The Bool test deciding whether a registration-sequence entry declares the
(truthy) identifier `k`. -/
def regMatch (k : String) (o : PLMObject) : Bool :=
  match o.oid with
  | some s => s != "" && s == k
  | none => false

/-- Traversal invariant: no id was printed twice, and every printed id is in
the visited set. -/
def BriefInv (st : BriefSt) : Prop :=
  st.printed.Nodup ∧ ∀ x ∈ st.printed, x ∈ st.visited

/-- The number of ids the traversal can still add to the visited set. -/
def unvisitedCount (g : InstanceGraph) (st : BriefSt) : Nat :=
  (allIds g).countP (fun k => decide (k ∉ st.visited))

/-- A Transform element with only three numeric tokens. -/
def threeTokenTransformElem : Element := Element.mk "Transform" [] (some "1 2 3") []

/-- A Transform element carrying the spec's identity-matrix example values. -/
def identityMatrixElem : Element :=
  Element.mk "Transform" [] (some "1 0 0 0 0 1 0 0 0 0 1 0 0 0 0 1") []

/-- A Transform element carrying the spec's almost-identity example values. -/
def nearIdentityMatrixElem : Element :=
  Element.mk "Transform" [] (some "1 0 0 0 0 1 0 0 0 0 1 0 0 0 1 1") []

/-- A transform whose 16 cells all hold the value 2. -/
def allTwosTransform : Transform :=
  ⟨none, [[⟨2, 1⟩, ⟨2, 1⟩, ⟨2, 1⟩, ⟨2, 1⟩], [⟨2, 1⟩, ⟨2, 1⟩, ⟨2, 1⟩, ⟨2, 1⟩],
    [⟨2, 1⟩, ⟨2, 1⟩, ⟨2, 1⟩, ⟨2, 1⟩], [⟨2, 1⟩, ⟨2, 1⟩, ⟨2, 1⟩, ⟨2, 1⟩]]⟩

/-- A Part element whose first `Nomenclature` UserValue has no value attribute
while a later UserData block carries one. -/
def nomenclatureEdgeElem : Element := Element.mk "Part" [("id", "p1")] none
  [ Element.mk "UserData" [] none [Element.mk "UserValue" [("title", "Nomenclature")] none []]
  , Element.mk "UserData" [] none
      [Element.mk "UserValue" [("title", "Nomenclature"), ("value", "X")] none []] ]

/-- The Part record `nomenclatureEdgeElem` constructs. -/
def nomenclatureEdgePart : Part :=
  Part.mk (some "p1") none none none none
    [⟨none, [⟨some "Nomenclature", none⟩]⟩, ⟨none, [⟨some "Nomenclature", some "X"⟩]⟩]
    none [] (some "X")

/-- Registry records for the spec's `i1 i2 i9` resolution example. -/
def recI1 : PLMObject := PLMObject.inst (Instance.mk (some "i1") none 1 none [] [] none)

def recI2 : PLMObject := PLMObject.inst (Instance.mk (some "i2") none 1 none [] [] none)

/-- A registry in which only `i1` and `i2` are registered. -/
def regI12 : Registry :=
  fun s => if s = "i1" then some recI1 else if s = "i2" then some recI2 else none

/-- A Part whose `instanceRefs` is the spec's example `"i1 i2 i9"`. -/
def partI129 : Part := Part.mk (some "p") none none (some "i1 i2 i9") none [] none [] none

/-- An empty instance graph and placeholder records for witness instantiation. -/
def emptyGraph : InstanceGraph := ⟨none, [], [], [], []⟩

def dummyInstance : Instance := Instance.mk none none 1 none [] [] none

def dummyRelation : Relation := Relation.mk none none none [] []

/-- Elements probing the quantity attribute. -/
def quantityZeroElem : Element :=
  Element.mk "Instance" [("id", "i1"), ("quantity", "0")] none []

def quantityAbsentElem : Element := Element.mk "Instance" [("id", "i2")] none []

/-- The Instance records those two elements construct. -/
def instanceQZero : Instance := Instance.mk (some "i1") none 0 none [] [] none

def instanceQAbsent : Instance := Instance.mk (some "i2") none 1 none [] [] none

/-- A reference cycle: Part `A` owns a resolved link to Instance `B`, whose
`partRef` points back at `A`; `A` is the root. -/
def instB : Instance := Instance.mk (some "B") (some "A") 1 none [] [] none

def partA : Part :=
  Part.mk (some "A") none none (some "B") none [] none [PLMObject.inst instB] none

def cycleGraph : InstanceGraph := ⟨some "A", [instB], [partA], [], []⟩

/-- The state the brief walk of `cycleGraph` ends in. -/
def cycleWalkSt : BriefSt :=
  ⟨["Part: id=A, instanceRefs=B", "  Instance: id=B, partRef=A"],
   [some "A", some "B"], [some "A", some "B"]⟩

/-- A document whose InstanceGraph has no root-reference string but one
Relation. -/
def noRootsGraph : InstanceGraph :=
  ⟨none, [], [], [], [Relation.mk (some "r1") (some "x y") none [] []]⟩

def noRootsDoc : PLMXML :=
  ⟨none, none, ⟨6, 1⟩, none, none, some ⟨some noRootsGraph⟩, none⟩

/-- A well-formed root element with no `schemaVersion` attribute. -/
def noSchemaVersionElem : Element := Element.mk "PLMXML" [("author", "a")] none []

/-- Decidable equality of `Except` results, for running concrete examples. -/
instance instDecEqExcept {e a : Type} [DecidableEq e] [DecidableEq a] :
    DecidableEq (Except e a) := fun x y =>
  match x, y with
  | Except.error m, Except.error n =>
    if h : m = n then isTrue (by rw [h]) else isFalse (fun hc => h (Except.error.inj hc))
  | Except.error _, Except.ok _ => isFalse (fun hc => Except.noConfusion hc)
  | Except.ok _, Except.error _ => isFalse (fun hc => Except.noConfusion hc)
  | Except.ok v, Except.ok w =>
    if h : v = w then isTrue (by rw [h]) else isFalse (fun hc => h (Except.ok.inj hc))

/-! ## Helper lemmas -/

/-- Success of `exMapM` is success of every element. -/
theorem exMapM_ok_iff {a b : Type} (f : a → Except String b) (l : List a) :
    (∃ v, exMapM f l = Except.ok v) ↔ ∀ x ∈ l, ∃ y, f x = Except.ok y := by
  induction l with
  | nil => simp [exMapM]
  | cons x l ih =>
    unfold exMapM
    constructor
    · rintro ⟨v, hv⟩
      rcases hfx : f x with m | y <;> rw [hfx] at hv
      · exact absurd hv (by simp)
      · rcases hrest : exMapM f l with m | ys <;> rw [hrest] at hv
        · exact absurd hv (by simp)
        · intro z hz
          rcases List.mem_cons.1 hz with rfl | hzl
          · exact ⟨y, hfx⟩
          · exact (ih.1 ⟨ys, hrest⟩) z hzl
    · intro hall
      obtain ⟨y, hy⟩ := hall x (List.mem_cons_self x l)
      obtain ⟨ys, hys⟩ := ih.2 (fun z hz => hall z (List.mem_cons_of_mem x hz))
      exact ⟨y :: ys, by rw [hy, hys]⟩

/-- The registered hits of an option-valued lookup, in token order. -/
theorem filterMap_eq_flatMap_toList {a b : Type} (f : a → Option b) (l : List a) :
    l.filterMap f = l.flatMap (fun x => (f x).toList) := by
  induction l with
  | nil => rfl
  | cons x l ih =>
    rcases hx : f x with _ | y <;> simp [List.filterMap_cons, hx, ih]

/-- Dict lookup after `add_to_map`: the most recent matching declaration wins,
records without a truthy id are never inserted. -/
theorem add_to_map_lookup (l : List PLMObject) (m : Registry) (k : String) :
    add_to_map m l k = (match l.reverse.find? (regMatch k) with
      | some o => some o
      | none => m k) := by
  induction l generalizing m with
  | nil => rfl
  | cons o l ih =>
    have step : add_to_map m (o :: l) = add_to_map (match o.oid with
        | some s => if s = "" then m else registryInsert m s o
        | none => m) l := by
      unfold add_to_map
      rw [List.foldl_cons]
    rw [step, ih, List.reverse_cons, List.find?_append]
    rcases hfind : List.find? (regMatch k) l.reverse with _ | o'
    · simp only [Option.none_or]
      rcases ho : o.oid with _ | s
      · have hrm : regMatch k o = false := by simp [regMatch, ho]
        simp [List.find?, hrm, ho]
      · by_cases hs : s = ""
        · have hrm : regMatch k o = false := by simp [regMatch, ho, hs]
          simp [List.find?, hrm, ho, hs]
        · by_cases hk : s = k
          · subst hk
            have hrm : regMatch s o = true := by simp [regMatch, ho, hs]
            simp [List.find?, hrm, ho, hs, registryInsert]
          · have hrm : regMatch k o = false := by simp [regMatch, ho, hk]
            simp only [List.find?, hrm, ho, registryInsert, if_neg hs]
            rw [if_neg (fun h : k = s => hk h.symm)]
    · simp

theorem add_to_map_append (m : Registry) (l1 l2 : List PLMObject) :
    add_to_map m (l1 ++ l2) = add_to_map (add_to_map m l1) l2 := by
  unfold add_to_map
  rw [List.foldl_append]

theorem add_to_map_reps (reps : List Representation) (m : Registry) :
    reps.foldl (fun acc rep => add_to_map acc (rep.compound_reps.map PLMObject.compoundRep)) m =
      add_to_map m (reps.flatMap (fun rep => rep.compound_reps.map PLMObject.compoundRep)) := by
  induction reps generalizing m with
  | nil => rfl
  | cons rep reps ih =>
    rw [List.foldl_cons, ih, List.flatMap_cons, add_to_map_append]

/-- Cross-multiplied tolerance test versus the rational value. -/
theorem Frac.farFrom_iff (f : Frac) (e : Int) (hd : 0 < f.den) :
    f.farFrom e = false ↔ |f.toRat - (e : ℚ)| ≤ 1 / 1000000000 := by
  have hd' : (0 : ℚ) < (f.den : ℚ) := by exact_mod_cast hd
  have key : f.toRat - (e : ℚ) = ((f.num - e * f.den : ℤ) : ℚ) / (f.den : ℚ) := by
    unfold Frac.toRat
    field_simp
    ring
  rw [Frac.farFrom, key, abs_div, abs_of_pos hd', decide_eq_false_iff_not, not_lt,
    div_le_div_iff₀ hd' (by norm_num : (0 : ℚ) < 1000000000), one_mul]
  rw [← Int.cast_abs, Int.abs_eq_natAbs]
  constructor
  · intro h
    exact_mod_cast h
  · intro h
    exact_mod_cast h

theorem matCell_mem (m : List (List Frac)) (i j : Nat) (f : Frac)
    (h : matCell m i j = Except.ok f) : ∃ row ∈ m, f ∈ row := by
  unfold matCell at h
  split at h
  · exact absurd h (by simp)
  next row hr =>
    split at h
    · exact absurd h (by simp)
    next v hv =>
      obtain rfl := Except.ok.inj h
      exact ⟨row, List.getElem?_mem hr, List.getElem?_mem hv⟩

theorem matCell_ok_of_shape (m : List (List Frac)) (h4 : m.length = 4)
    (hrow : ∀ row ∈ m, row.length = 4) (i j : Nat) (hi : i < 4) (hj : j < 4) :
    ∃ f, matCell m i j = Except.ok f := by
  have hi' : i < m.length := by omega
  have hr : m[i]? = some m[i] := List.getElem?_eq_getElem hi'
  have hj' : j < m[i].length := by
    rw [hrow m[i] (List.getElem_mem hi')]
    exact hj
  have hv : m[i][j]? = some m[i][j] := List.getElem?_eq_getElem hj'
  exact ⟨m[i][j], by simp [matCell, hr, hv]⟩

theorem mem_identityPairs (i j : Nat) : (i, j) ∈ identityPairs ↔ i < 4 ∧ j < 4 := by
  simp only [identityPairs, List.mem_flatMap, List.mem_map, List.mem_range]
  constructor
  · rintro ⟨a, ha, b, hb, heq⟩
    cases heq
    exact ⟨ha, hb⟩
  · rintro ⟨hi, hj⟩
    exact ⟨i, hi, j, hj, rfl⟩

/-- When every scanned cell exists, the scan cannot raise and reports `true`
exactly when no cell is beyond the tolerance. -/
theorem identityScan_spec (m : List (List Frac)) (ps : List (Nat × Nat))
    (hex : ∀ q ∈ ps, ∃ f, matCell m q.1 q.2 = Except.ok f) :
    (∃ b, identityScan m ps = Except.ok b) ∧
    (identityScan m ps = Except.ok true ↔
      ∀ q ∈ ps, ∀ f, matCell m q.1 q.2 = Except.ok f →
        f.farFrom (if q.1 = q.2 then 1 else 0) = false) := by
  induction ps with
  | nil => simp [identityScan]
  | cons q ps ih =>
    rcases q with ⟨i, j⟩
    obtain ⟨f, hf⟩ := hex (i, j) (List.mem_cons_self _ _)
    obtain ⟨⟨b, hb⟩, hiff⟩ := ih (fun q hq => hex q (List.mem_cons_of_mem _ hq))
    dsimp only at hf
    by_cases hfar : f.farFrom (if i = j then 1 else 0) = true
    · simp only [identityScan, hf, hfar, if_true]
      refine ⟨⟨false, rfl⟩, ?_⟩
      constructor
      · intro h
        exact absurd h (by simp)
      · intro hall
        have := hall (i, j) (List.mem_cons_self _ _) f hf
        rw [hfar] at this
        exact absurd this (by simp)
    · simp only [identityScan, hf, if_neg hfar]
      refine ⟨⟨b, hb⟩, ?_⟩
      rw [hiff]
      constructor
      · intro hall q hq f' hf'
        rcases List.mem_cons.1 hq with heq | hq'
        · subst heq
          obtain rfl : f = f' := Except.ok.inj (hf.symm.trans hf')
          simpa using hfar
        · exact hall q hq' f' hf'
      · intro hall q hq f' hf'
        exact hall q (List.mem_cons_of_mem _ hq) f' hf'

theorem bracket_ne_identity (s t : String) : "[" ++ s ++ t ≠ "Identity" := by
  intro h
  have hh : ("[" ++ s ++ t).data.head? = "Identity".data.head? := by rw [h]
  have h1 : ("[" ++ s ++ t).data.head? = some '[' := by
    have hd : ("[" ++ s ++ t).data = '[' :: (s.data ++ t.data) := rfl
    rw [hd]
    rfl
  rw [h1] at hh
  exact absurd (Option.some.inj hh) (by decide)

/-! ## Traversal lemmas -/

theorem countP_le_of_subset (l v v' : List (Option String)) (hsub : v ⊆ v') :
    l.countP (fun k => decide (k ∉ v')) ≤ l.countP (fun k => decide (k ∉ v)) :=
  List.countP_mono_left (fun a _ ha => by
    simp only [decide_eq_true_eq] at ha ⊢
    exact fun hav => ha (hsub hav))

theorem countP_insert_lt (l v : List (Option String)) (a : Option String)
    (hal : a ∈ l) (hav : a ∉ v) :
    l.countP (fun k => decide (k ∉ v ++ [a])) < l.countP (fun k => decide (k ∉ v)) := by
  induction l with
  | nil => cases hal
  | cons b l ih =>
    rw [List.countP_cons, List.countP_cons]
    have hle : l.countP (fun k => decide (k ∉ v ++ [a])) ≤ l.countP (fun k => decide (k ∉ v)) :=
      countP_le_of_subset l v (v ++ [a]) (List.subset_append_left v [a])
    have hmono : decide (b ∉ v ++ [a]) = true → decide (b ∉ v) = true := by
      simp only [decide_eq_true_eq]
      exact fun h hc => h (List.mem_append_left _ hc)
    rcases List.mem_cons.1 hal with heq | hbl
    · subst heq
      have h1 : (decide (a ∉ v ++ [a])) = false := by simp
      have h2 : (decide (a ∉ v)) = true := by simpa using hav
      rw [h1, h2]
      simp only [Bool.false_eq_true, if_false, if_true]
      omega
    · have hlt := ih hbl
      cases hd1 : decide (b ∉ v ++ [a]) <;> cases hd2 : decide (b ∉ v) <;>
          simp only [Bool.false_eq_true, if_false, if_true] <;> try omega
      exact absurd (hmono hd1) (by rw [hd2]; exact Bool.false_ne_true)

theorem lookupLast_mem {α : Type} (idOf : α → Option String) (l : List α)
    (k : Option String) (x : α) (h : lookupLast idOf l k = some x) :
    x ∈ l ∧ idOf x = k := by
  unfold lookupLast at h
  have hm := List.mem_of_find?_eq_some h
  have hp := List.find?_some h
  rw [List.mem_reverse] at hm
  exact ⟨hm, by simpa using hp⟩

theorem exFoldlM_visit_pres (step : Option String → BriefSt → Except BriefErr BriefSt)
    (hstep : ∀ k st st', step k st = Except.ok st' →
      st.visited ⊆ st'.visited ∧ (BriefInv st → BriefInv st')) :
    ∀ (ids : List (Option String)) (st st' : BriefSt),
      exFoldlM (fun s k => step k s) st ids = Except.ok st' →
      st.visited ⊆ st'.visited ∧ (BriefInv st → BriefInv st') := by
  intro ids
  induction ids with
  | nil =>
    intro st st' h
    obtain rfl := Except.ok.inj h
    exact ⟨List.Subset.refl _, id⟩
  | cons k ids ih =>
    intro st st' h
    unfold exFoldlM at h
    rcases hk : step k st with m | st1 <;> simp only [hk] at h
    · exact (Except.noConfusion h)
    · obtain ⟨s1, i1⟩ := hstep k st st1 hk
      obtain ⟨s2, i2⟩ := ih st1 st' h
      exact ⟨List.Subset.trans s1 s2, fun hi => i2 (i1 hi)⟩

theorem exFoldlM_ne_fuel (g : InstanceGraph)
    (step : Option String → BriefSt → Except BriefErr BriefSt) (N : Nat)
    (hmono : ∀ k st st', step k st = Except.ok st' → st.visited ⊆ st'.visited)
    (hnf : ∀ k st, unvisitedCount g st < N → step k st ≠ Except.error BriefErr.fuel) :
    ∀ (ids : List (Option String)) (st : BriefSt), unvisitedCount g st < N →
      exFoldlM (fun s k => step k s) st ids ≠ Except.error BriefErr.fuel := by
  intro ids
  induction ids with
  | nil =>
    intro st _ hc
    exact (Except.noConfusion hc)
  | cons k ids ih =>
    intro st hcount
    unfold exFoldlM
    rcases hk : step k st with m | st1 <;> simp only [hk]
    · intro hc
      obtain rfl := Except.error.inj hc
      exact hnf k st hcount hk
    · have hle : unvisitedCount g st1 ≤ unvisitedCount g st :=
        countP_le_of_subset _ _ _ (hmono k st st1 hk)
      exact ih st1 (by omega)

theorem BriefSt.put_subset (st : BriefSt) (line : String) (oid : Option String) :
    st.visited ⊆ (st.put line oid).visited := by
  unfold BriefSt.put
  exact List.subset_append_left _ _

theorem BriefSt.put_inv (st : BriefSt) (line : String) (oid : Option String)
    (hnv : oid ∉ st.visited) (hi : BriefInv st) : BriefInv (st.put line oid) := by
  obtain ⟨hnd, hsub⟩ := hi
  refine ⟨?_, ?_⟩
  · rw [BriefSt.put]
    simp only [List.nodup_append, List.nodup_cons, List.nodup_nil]
    refine ⟨hnd, by simp, ?_⟩
    intro x hx
    simp only [List.mem_singleton]
    intro hxa
    subst hxa
    exact hnv (hsub x hx)
  · intro x hx
    rw [BriefSt.put] at hx ⊢
    simp only [List.mem_append, List.mem_singleton] at hx ⊢
    rcases hx with hx | hx
    · exact Or.inl (hsub x hx)
    · exact Or.inr hx

theorem BriefSt.put_count (g : InstanceGraph) (st : BriefSt) (line : String)
    (oid : Option String) (hmem : oid ∈ allIds g) (hnv : oid ∉ st.visited) :
    unvisitedCount g (st.put line oid) < unvisitedCount g st :=
  countP_insert_lt (allIds g) st.visited oid hmem hnv

theorem putLine_inv (st : BriefSt) (line : String) :
    (st.putLine line).visited = st.visited ∧ (st.putLine line).printed = st.printed :=
  ⟨rfl, rfl⟩

theorem visitF_pres (g : InstanceGraph) :
    ∀ (f : Nat) (objId : Option String) (ind : Nat) (st st' : BriefSt),
      visitF g f objId ind st = Except.ok st' →
      st.visited ⊆ st'.visited ∧ (BriefInv st → BriefInv st') := by
  intro f
  induction f with
  | zero =>
    intro objId ind st st' h
    exact (Except.noConfusion h)
  | succ f ih =>
    intro objId ind st st' h
    unfold visitF at h
    by_cases hv : objId ∈ st.visited
    · rw [if_pos hv] at h
      obtain rfl := Except.ok.inj h
      exact ⟨List.Subset.refl _, id⟩
    · rw [if_neg hv] at h
      have hstep : ∀ (k : Option String) (st st' : BriefSt),
          visitF g f k (ind + 1) st = Except.ok st' →
          st.visited ⊆ st'.visited ∧ (BriefInv st → BriefInv st') :=
        fun k st st' hh => ih k (ind + 1) st st' hh
      rcases hp : lookupLast Part.id g.parts objId with _ | part <;> simp only [hp] at h
      · rcases hi : lookupLast Instance.id g.instances objId with _ | inst <;>
          simp only [hi] at h
        · rcases hrr : lookupLast Representation.id (reprList g) objId with _ | robj <;>
            simp only [hrr] at h
          · rcases hcc : lookupLast CompoundRep.id (compoundRepList g) objId with _ | cobj <;>
              simp only [hcc] at h
            · obtain rfl := Except.ok.inj h
              exact ⟨List.Subset.refl _, id⟩
            · -- CompoundRep branch
              by_cases hcv : cobj.id ∈ st.visited
              · rw [if_pos hcv] at h
                obtain rfl := Except.ok.inj h
                exact ⟨List.Subset.refl _, id⟩
              · rw [if_neg hcv] at h
                rcases hct : cobj.transform with _ | t <;> simp only [hct] at h
                · obtain rfl := Except.ok.inj h
                  exact ⟨BriefSt.put_subset st _ _, BriefSt.put_inv st _ _ hcv⟩
                · rcases htl : transformLine ind t with m | line <;> simp only [htl] at h
                  · exact (Except.noConfusion h)
                  · obtain rfl := Except.ok.inj h
                    exact ⟨BriefSt.put_subset st (crLine ind cobj) cobj.id,
                      fun hinv => BriefSt.put_inv st (crLine ind cobj) cobj.id hcv hinv⟩
          · -- Representation branch
            by_cases hrv : robj.id ∈ st.visited
            · rw [if_pos hrv] at h
              obtain rfl := Except.ok.inj h
              exact ⟨List.Subset.refl _, id⟩
            · rw [if_neg hrv] at h
              obtain ⟨s2, i2⟩ := exFoldlM_visit_pres _ hstep _ _ _ h
              exact ⟨List.Subset.trans (BriefSt.put_subset st _ _) s2,
                fun hinv => i2 (BriefSt.put_inv st _ _ hrv hinv)⟩
        · -- Instance branch
          rcases hit : inst.transform with _ | t <;> simp only [hit] at h
          · obtain ⟨s2, i2⟩ := exFoldlM_visit_pres _ hstep _ _ _ h
            exact ⟨List.Subset.trans (BriefSt.put_subset st _ _) s2,
              fun hinv => i2 (BriefSt.put_inv st _ _ hv hinv)⟩
          · rcases htl : transformLine ind t with m | line <;> simp only [htl] at h
            · exact (Except.noConfusion h)
            · obtain ⟨s2, i2⟩ := exFoldlM_visit_pres _ hstep _ _ _ h
              exact ⟨List.Subset.trans (BriefSt.put_subset st (instanceLine ind inst) objId) s2,
                fun hinv => i2 (BriefSt.put_inv st (instanceLine ind inst) objId hv hinv)⟩
      · -- Part branch
        obtain ⟨s2, i2⟩ := exFoldlM_visit_pres _ hstep _ _ _ h
        exact ⟨List.Subset.trans (BriefSt.put_subset st _ _) s2,
          fun hinv => i2 (BriefSt.put_inv st _ _ hv hinv)⟩

theorem mem_allIds_part (g : InstanceGraph) (part : Part) (objId : Option String)
    (h : lookupLast Part.id g.parts objId = some part) : objId ∈ allIds g := by
  obtain ⟨hmem, hid⟩ := lookupLast_mem _ _ _ _ h
  unfold allIds
  simp only [List.mem_append, List.mem_map]
  exact Or.inl (Or.inl (Or.inl ⟨part, hmem, hid⟩))

theorem mem_allIds_inst (g : InstanceGraph) (inst : Instance) (objId : Option String)
    (h : lookupLast Instance.id g.instances objId = some inst) : objId ∈ allIds g := by
  obtain ⟨hmem, hid⟩ := lookupLast_mem _ _ _ _ h
  unfold allIds
  simp only [List.mem_append, List.mem_map]
  exact Or.inl (Or.inl (Or.inr ⟨inst, hmem, hid⟩))

theorem mem_allIds_repr (g : InstanceGraph) (robj : Representation) (objId : Option String)
    (h : lookupLast Representation.id (reprList g) objId = some robj) :
    robj.id ∈ allIds g := by
  obtain ⟨hmem, _⟩ := lookupLast_mem _ _ _ _ h
  unfold allIds
  simp only [List.mem_append, List.mem_map]
  exact Or.inl (Or.inr ⟨robj, hmem, rfl⟩)

theorem mem_allIds_crep (g : InstanceGraph) (cobj : CompoundRep) (objId : Option String)
    (h : lookupLast CompoundRep.id (compoundRepList g) objId = some cobj) :
    cobj.id ∈ allIds g := by
  obtain ⟨hmem, _⟩ := lookupLast_mem _ _ _ _ h
  unfold allIds
  simp only [List.mem_append, List.mem_map]
  exact Or.inr ⟨cobj, hmem, rfl⟩

theorem visitF_ne_fuel (g : InstanceGraph) :
    ∀ (f : Nat) (objId : Option String) (ind : Nat) (st : BriefSt),
      unvisitedCount g st < f →
      visitF g f objId ind st ≠ Except.error BriefErr.fuel := by
  intro f
  induction f with
  | zero =>
    intro objId ind st hc
    exact absurd hc (Nat.not_lt_zero _)
  | succ f ih =>
    intro objId ind st hc
    have hle : unvisitedCount g st ≤ f := Nat.lt_succ_iff.1 hc
    have hmono : ∀ (k : Option String) (st st' : BriefSt),
        visitF g f k (ind + 1) st = Except.ok st' → st.visited ⊆ st'.visited :=
      fun k st st' hh => (visitF_pres g f k (ind + 1) st st' hh).1
    have hnf : ∀ (k : Option String) (st : BriefSt), unvisitedCount g st < f →
        visitF g f k (ind + 1) st ≠ Except.error BriefErr.fuel :=
      fun k st hcc => ih k (ind + 1) st hcc
    unfold visitF
    by_cases hv : objId ∈ st.visited
    · rw [if_pos hv]
      exact fun hcontra => Except.noConfusion hcontra
    · rw [if_neg hv]
      rcases hp : lookupLast Part.id g.parts objId with _ | part <;> simp only [hp]
      · rcases hi : lookupLast Instance.id g.instances objId with _ | inst <;> simp only [hi]
        · rcases hrr : lookupLast Representation.id (reprList g) objId with _ | robj <;>
            simp only [hrr]
          · rcases hcc : lookupLast CompoundRep.id (compoundRepList g) objId with _ | cobj <;>
              simp only [hcc]
            · exact fun hcontra => Except.noConfusion hcontra
            · by_cases hcv : cobj.id ∈ st.visited
              · rw [if_pos hcv]
                exact fun hcontra => Except.noConfusion hcontra
              · rw [if_neg hcv]
                rcases hct : cobj.transform with _ | t <;> simp only [hct]
                · exact fun hcontra => Except.noConfusion hcontra
                · rcases htl : transformLine ind t with m | line <;> simp only [htl]
                  · intro hcontra
                    exact BriefErr.noConfusion (Except.error.inj hcontra)
                  · exact fun hcontra => Except.noConfusion hcontra
          · by_cases hrv : robj.id ∈ st.visited
            · rw [if_pos hrv]
              exact fun hcontra => Except.noConfusion hcontra
            · rw [if_neg hrv]
              have hcnt : unvisitedCount g (st.put (reprLine ind robj) robj.id) < f := by
                have := BriefSt.put_count g st (reprLine ind robj) robj.id
                  (mem_allIds_repr g robj objId hrr) hrv
                omega
              exact exFoldlM_ne_fuel g _ f hmono hnf _ _ hcnt
        · rcases hit : inst.transform with _ | t <;> simp only [hit]
          · have hcnt : unvisitedCount g (st.put (instanceLine ind inst) objId) < f := by
              have := BriefSt.put_count g st (instanceLine ind inst) objId
                (mem_allIds_inst g inst objId hi) hv
              omega
            exact exFoldlM_ne_fuel g _ f hmono hnf _ _ hcnt
          · rcases htl : transformLine ind t with m | line <;> simp only [htl]
            · intro hcontra
              exact BriefErr.noConfusion (Except.error.inj hcontra)
            · have hcnt : unvisitedCount g (st.put (instanceLine ind inst) objId) < f := by
                have := BriefSt.put_count g st (instanceLine ind inst) objId
                  (mem_allIds_inst g inst objId hi) hv
                omega
              exact exFoldlM_ne_fuel g _ f hmono hnf _ _ hcnt
      · have hcnt : unvisitedCount g (st.put (partLine ind part) objId) < f := by
          have := BriefSt.put_count g st (partLine ind part) objId
            (mem_allIds_part g part objId hp) hv
          omega
        exact exFoldlM_ne_fuel g _ f hmono hnf _ _ hcnt


/-! ## The claims -/

/-- Claim C1: for every parsed document (indeed for every instance graph, even
with reference cycles or shared diamond structure), the brief-view traversal
started from the rootRefs identifiers terminates — the recursion-depth fuel
`fuelBound` is never exhausted, for the walk and for the whole renderer — and
each identifier is printed at most once: the ghost print trace of any completed
walk has no duplicates, and a call on an already-visited identifier returns its
state unchanged, printing nothing and recursing nowhere. -/
theorem claim1_brief_traversal_terminates_prints_once :
    (∀ (g : InstanceGraph) (rootIds : List (Option String)) (lines0 : List String),
      briefWalk g rootIds lines0 ≠ Except.error BriefErr.fuel) ∧
    (∀ (g : InstanceGraph) (rootIds : List (Option String)) (lines0 : List String)
      (st' : BriefSt), briefWalk g rootIds lines0 = Except.ok st' → st'.printed.Nodup) ∧
    (∀ (g : InstanceGraph) (f : Nat) (objId : Option String) (ind : Nat) (st : BriefSt),
      objId ∈ st.visited → visitF g (f + 1) objId ind st = Except.ok st) ∧
    (∀ p : PLMXML, output_as_brief p ≠ Except.error BriefErr.fuel) := by
  have hwalk : ∀ (g : InstanceGraph) (rootIds : List (Option String)) (lines0 : List String),
      briefWalk g rootIds lines0 ≠ Except.error BriefErr.fuel := by
    intro g rootIds lines0
    unfold briefWalk
    have hcnt : unvisitedCount g ⟨lines0, [], []⟩ < fuelBound g := by
      have hle : (allIds g).countP (fun k => decide (k ∉ ([] : List (Option String)))) ≤
          (allIds g).length := List.countP_le_length _
      have heq : unvisitedCount g ⟨lines0, [], []⟩ =
          (allIds g).countP (fun k => decide (k ∉ ([] : List (Option String)))) := rfl
      rw [heq, fuelBound]
      omega
    exact exFoldlM_ne_fuel g _ (fuelBound g)
      (fun k st st' hh => (visitF_pres g (fuelBound g) k 0 st st' hh).1)
      (fun k st hcc => visitF_ne_fuel g (fuelBound g) k 0 st hcc) rootIds _ hcnt
  refine ⟨hwalk, ?_, ?_, ?_⟩
  · intro g rootIds lines0 st' h
    have hinv : BriefInv ⟨lines0, [], []⟩ := ⟨List.nodup_nil, by simp⟩
    exact ((exFoldlM_visit_pres _
      (fun k st st' hh => visitF_pres g (fuelBound g) k 0 st st' hh) rootIds _ _ h).2 hinv).1
  · intro g f objId ind st hm
    unfold visitF
    rw [if_pos hm]
  · intro p
    unfold output_as_brief
    rcases hpd : p.product_def.bind ProductDef.instance_graph with _ | graph <;>
      simp only [hpd]
    · exact fun hcontra => Except.noConfusion hcontra
    · rcases hw : briefWalk graph
        (if pyTruthy graph.root_refs = true then
          List.map some (pySplit (pyStrOpt graph.root_refs)) else [])
        (headerLines p ++ ["InstanceGraph: rootRefs=" ++ pyStrOpt graph.root_refs]) with
        err | st <;> simp only [hw]
      · intro hcontra
        obtain rfl := Except.error.inj hcontra
        exact hwalk _ _ _ hw
      · exact fun hcontra => Except.noConfusion hcontra

/-- Witness for C1: on the cyclic document (Part `A` whose resolved child is
Instance `B`, whose `partRef` leads back to `A`) the walk completes with `A`
and `B` each printed exactly once. -/
theorem claim1_brief_traversal_terminates_prints_once_witness :
    briefWalk cycleGraph [some "A"] [] = Except.ok cycleWalkSt ∧
    cycleWalkSt.printed.Nodup :=
  ⟨rfl, claim1_brief_traversal_terminates_prints_once.2.1 cycleGraph [some "A"] []
    cycleWalkSt rfl⟩

/-- Counterexample to C2 as stated: a Transform element whose text holds only
three numeric tokens (fewer than 16) does not raise; construction succeeds and
yields a ragged matrix with one short row and three empty rows. -/
theorem claim2_short_transform_counterexample :
    Transform.ofElement threeTokenTransformElem =
      Except.ok ⟨none, [[⟨1, 1⟩, ⟨2, 1⟩, ⟨3, 1⟩], [], [], []]⟩ := rfl

/-- Claim C2 (amended): constructing a Transform raises exactly when some
whitespace token of the text content is not a valid number — such a token is
fatal unconditionally — while the number of tokens is never checked:
construction succeeds on any all-numeric token list, short ones included. -/
theorem claim2_transform_error_iff_bad_token (e : Element) :
    (∃ t, Transform.ofElement e = Except.ok t) ↔
      ∀ tok ∈ transformTokens e, (pyFloat tok).isSome = true := by
  unfold Transform.ofElement
  constructor
  · rintro ⟨t, ht⟩
    rcases hm : exMapM (fun x =>
      match pyFloat x with
      | some v => Except.ok v
      | none => Except.error ("ValueError: could not convert string to float: " ++ x))
      (transformTokens e) with m | vs <;> rw [hm] at ht
    · exact absurd ht (by simp)
    · intro tok htok
      obtain ⟨y, hy⟩ := ((exMapM_ok_iff _ _).1 ⟨vs, hm⟩) tok htok
      rcases hpf : pyFloat tok with _ | v <;> rw [hpf] at hy
      · exact absurd hy (by simp)
      · simp [hpf]
  · intro hall
    have hstep : ∀ x ∈ transformTokens e, ∃ y, (match pyFloat x with
        | some v => Except.ok v
        | none => (Except.error ("ValueError: could not convert string to float: " ++ x) :
            Except String Frac)) = Except.ok y := by
      intro x hx
      rcases hpf : pyFloat x with _ | v
      · exact absurd (hall x hx) (by simp [hpf])
      · exact ⟨v, rfl⟩
    obtain ⟨vs, hvs⟩ := (exMapM_ok_iff _ _).2 hstep
    exact ⟨_, by rw [hvs]⟩

/-- Witness for C2 (amended): the three-token element parses successfully. -/
theorem claim2_transform_error_iff_bad_token_witness :
    ∃ t, Transform.ofElement threeTokenTransformElem = Except.ok t :=
  (claim2_transform_error_iff_bad_token threeTokenTransformElem).mpr (by decide)

/-- Claim C3: the resolution pass maps each record through its per-kind
resolver, and whenever a Part's `instanceRefs` (an Instance's `partRef`, a
Relation's `relatedRefs`) is a present non-empty string, the resolved link
list is exactly the registry record of each whitespace token that is
registered, in token order, unregistered tokens silently dropped. -/
theorem claim3_resolution_token_order_drop_misses (reg : Registry) (g : InstanceGraph)
    (p : Part) (i : Instance) (r : Relation) :
    ((resolvePass reg g).parts = g.parts.map (Part.resolve reg) ∧
     (resolvePass reg g).instances = g.instances.map (Instance.resolve reg) ∧
     (resolvePass reg g).relations = g.relations.map (Relation.resolve reg)) ∧
    (∀ s, p.instance_refs = some s → s ≠ "" →
      (Part.resolve reg p).child_objects = (pySplit s).flatMap (fun tok => (reg tok).toList)) ∧
    (∀ s, i.part_ref = some s → s ≠ "" →
      (Instance.resolve reg i).part_references =
        (pySplit s).flatMap (fun tok => (reg tok).toList)) ∧
    (∀ s, r.related_refs = some s → s ≠ "" →
      (Relation.resolve reg r).related_objects =
        (pySplit s).flatMap (fun tok => (reg tok).toList)) := by
  refine ⟨⟨rfl, rfl, rfl⟩, ?_, ?_, ?_⟩
  · intro s hs hne
    rcases p with ⟨pid, pn, prr, pir, prep, pud, pta, pco, pnom⟩
    simp only [Part.instance_refs] at hs
    subst hs
    unfold Part.resolve
    simp [if_neg hne, Part.child_objects, filterMap_eq_flatMap_toList]
  · intro s hs hne
    rcases i with ⟨iid, ipr, iq, itr, iud, iprs, inom⟩
    simp only [Instance.part_ref] at hs
    subst hs
    unfold Instance.resolve
    simp [if_neg hne, Instance.part_references, filterMap_eq_flatMap_toList]
  · intro s hs hne
    rcases r with ⟨rid, rrr, rst, rud, rro⟩
    simp only [Relation.related_refs] at hs
    subst hs
    unfold Relation.resolve
    simp [if_neg hne, Relation.related_objects, filterMap_eq_flatMap_toList]

/-- Witness for C3: with only `i1` and `i2` registered,
`instanceRefs="i1 i2 i9"` resolves to exactly the records of `i1` then `i2`. -/
theorem claim3_resolution_token_order_drop_misses_witness :
    (Part.resolve regI12 partI129).child_objects = [recI1, recI2] ∧
    (Part.resolve regI12 partI129).child_objects =
      (pySplit "i1 i2 i9").flatMap (fun tok => (regI12 tok).toList) :=
  ⟨rfl, (claim3_resolution_token_order_drop_misses regI12 emptyGraph partI129
    dummyInstance dummyRelation).2.1 "i1 i2 i9" rfl (by decide)⟩

/-- Claim C4: a constructed Instance has quantity 1 when the `quantity`
attribute is absent or empty, and the `int`-parsed attribute value when it is
present and non-empty — so absent and explicit `"0"` are distinguishable. -/
theorem claim4_instance_quantity_default (e : Element) (i : Instance)
    (h : Instance.ofElement e = Except.ok i) :
    ((e.get "quantity" = none ∨ e.get "quantity" = some "") → i.quantity = 1) ∧
    (∀ s n, e.get "quantity" = some s → s ≠ "" → pyInt s = some n → i.quantity = n) := by
  unfold Instance.ofElement at h
  constructor
  · rintro (hq | hq) <;>
    · unfold instanceQuantity at h
      rw [hq] at h
      simp only [if_pos rfl] at h
      rcases hf : exFoldlM instanceChildStep (none, []) e.children with m | acc <;> rw [hf] at h
      · exact absurd h (by simp)
      · obtain rfl : Instance.mk (e.get "id") (e.get "partRef") 1 acc.1 acc.2 []
          (scanNomenclature acc.2) = i := Except.ok.inj h
        rfl
  · intro s n hq hs hpi
    unfold instanceQuantity at h
    rw [hq] at h
    simp only [if_neg hs, hpi] at h
    rcases hf : exFoldlM instanceChildStep (none, []) e.children with m | acc <;> rw [hf] at h
    · exact absurd h (by simp)
    · obtain rfl : Instance.mk (e.get "id") (e.get "partRef") n acc.1 acc.2 []
        (scanNomenclature acc.2) = i := Except.ok.inj h
      rfl

/-- Witness for C4: `quantity="0"` parses to 0; an absent attribute defaults
to 1. -/
theorem claim4_instance_quantity_default_witness :
    instanceQZero.quantity = 0 ∧ instanceQAbsent.quantity = 1 :=
  ⟨(claim4_instance_quantity_default quantityZeroElem instanceQZero rfl).2
      "0" 0 rfl (by decide) rfl,
   (claim4_instance_quantity_default quantityAbsentElem instanceQAbsent rfl).1 (Or.inl rfl)⟩

/-- Claim C5: for a 4×4 matrix, formatting returns `"Identity"` exactly when
every cell is within the absolute tolerance 1e-9 of the corresponding
identity-matrix cell, and otherwise returns the 16 cells row-major, each with
three decimal places, space-separated in brackets; an empty matrix renders as
`"[]"`; the spec's two concrete 16-value examples render as `Identity` and as
the bracketed fixed-point list. -/
theorem claim5_matrix_formatting (t : Transform) :
    (t.matrix.length = 4 → (∀ row ∈ t.matrix, row.length = 4) →
      (∀ row ∈ t.matrix, ∀ f ∈ row, 0 < f.den) →
      ((Transform.matrix_as_string t = Except.ok "Identity" ↔
        ∀ i j, i < 4 → j < 4 → ∀ f, matCell t.matrix i j = Except.ok f →
          |f.toRat - (if i = j then (1 : ℚ) else 0)| ≤ 1 / 1000000000) ∧
       (Transform.matrix_as_string t ≠ Except.ok "Identity" →
        Transform.matrix_as_string t =
          Except.ok ("[" ++ pyJoin " " (t.matrix.flatten.map formatFixed3) ++ "]")))) ∧
    (t.matrix = [] → Transform.matrix_as_string t = Except.ok "[]") ∧
    (Transform.ofElement identityMatrixElem).bind Transform.matrix_as_string =
      Except.ok "Identity" ∧
    (Transform.ofElement nearIdentityMatrixElem).bind Transform.matrix_as_string =
      Except.ok "[1.000 0.000 0.000 0.000 0.000 1.000 0.000 0.000 0.000 0.000 1.000 0.000 0.000 0.000 1.000 1.000]" := by
  refine ⟨?_, ?_, rfl, rfl⟩
  · intro h4 hrow hden
    have hne : t.matrix.isEmpty = false := by
      rcases hm : t.matrix with _ | ⟨r, rest⟩
      · rw [hm] at h4
        simp at h4
      · rfl
    have hex : ∀ q ∈ identityPairs, ∃ f, matCell t.matrix q.1 q.2 = Except.ok f := by
      intro q hq
      rcases q with ⟨i, j⟩
      obtain ⟨hi, hj⟩ := (mem_identityPairs i j).1 hq
      exact matCell_ok_of_shape _ h4 hrow _ _ hi hj
    obtain ⟨⟨b, hb⟩, hiff⟩ := identityScan_spec t.matrix identityPairs hex
    have hbridge : (∀ q ∈ identityPairs, ∀ f, matCell t.matrix q.1 q.2 = Except.ok f →
        f.farFrom (if q.1 = q.2 then 1 else 0) = false) ↔
        (∀ i j, i < 4 → j < 4 → ∀ f, matCell t.matrix i j = Except.ok f →
          |f.toRat - (if i = j then (1 : ℚ) else 0)| ≤ 1 / 1000000000) := by
      have hden' : ∀ i j f, matCell t.matrix i j = Except.ok f → 0 < f.den := by
        intro i j f hf
        obtain ⟨row, hrm, hfr⟩ := matCell_mem _ _ _ _ hf
        exact hden row hrm f hfr
      constructor
      · intro hall i j hi hj f hf
        have h1 := hall (i, j) ((mem_identityPairs i j).2 ⟨hi, hj⟩) f hf
        dsimp only at h1
        rw [Frac.farFrom_iff f _ (hden' i j f hf)] at h1
        by_cases hij : i = j
        · simp only [hij, if_true] at h1 ⊢
          exact_mod_cast h1
        · simp only [if_neg hij] at h1 ⊢
          exact_mod_cast h1
      · intro hall q hq f hf
        rcases q with ⟨i, j⟩
        obtain ⟨hi, hj⟩ := (mem_identityPairs i j).1 hq
        have h1 := hall i j hi hj f hf
        dsimp only
        rw [Frac.farFrom_iff f _ (hden' i j f hf)]
        by_cases hij : i = j
        · simp only [hij, if_true] at h1 ⊢
          exact_mod_cast h1
        · simp only [if_neg hij] at h1 ⊢
          exact_mod_cast h1
    have hmas : Transform.matrix_as_string t = (match identityScan t.matrix identityPairs with
      | Except.error msg => Except.error msg
      | Except.ok is_identity =>
        if is_identity then Except.ok "Identity"
        else Except.ok ("[" ++ pyJoin " " (t.matrix.flatten.map formatFixed3) ++ "]")) := by
      unfold Transform.matrix_as_string
      rw [hne]
      rfl
    rw [hmas, hb]
    cases b
    · simp only [if_neg (by decide : ¬(false = true))]
      constructor
      · constructor
        · intro h
          exact absurd (Except.ok.inj h) (bracket_ne_identity _ _)
        · intro hP
          have hT : identityScan t.matrix identityPairs = Except.ok true :=
            hiff.2 (hbridge.2 hP)
          rw [hb] at hT
          exact absurd (Except.ok.inj hT) (by decide)
      · intro _
        trivial
    · simp only [if_pos rfl]
      constructor
      · constructor
        · intro _
          exact hbridge.1 (hiff.1 hb)
        · intro _
          trivial
      · intro hcontra
        exact absurd rfl hcontra
  · intro hm
    unfold Transform.matrix_as_string
    rw [hm]
    rfl

/-- Witness for C5: the empty matrix renders as `"[]"`, and an all-twos 4×4
matrix is not `Identity` and renders as the bracketed fixed-point list. -/
theorem claim5_matrix_formatting_witness :
    Transform.matrix_as_string ⟨none, []⟩ = Except.ok "[]" ∧
    Transform.matrix_as_string allTwosTransform =
      Except.ok ("[" ++ pyJoin " " (allTwosTransform.matrix.flatten.map formatFixed3) ++ "]") :=
  ⟨(claim5_matrix_formatting ⟨none, []⟩).2.1 rfl,
   ((claim5_matrix_formatting allTwosTransform).1 (by decide) (by decide) (by decide)).2
     (by decide)⟩

/-- Counterexample to C6 as stated: in `nomenclatureEdgeElem` the first
UserValue titled `Nomenclature` (first block) has no value, so the claimed
rule gives an unset nomenclature, yet the constructed Part carries the second
block's value `X`. -/
theorem claim6_first_match_counterexample :
    (Part.ofElement nomenclatureEdgeElem).map Part.nomenclature = Except.ok (some "X") ∧
    (Part.ofElement nomenclatureEdgeElem).map
      (fun p => specNomenclatureFirstMatch p.user_data) = Except.ok none :=
  ⟨rfl, rfl⟩

/-- Claim C6 (amended): scanning the UserData blocks in order, each block
contributes the value of its first UserValue titled `Nomenclature` (if any),
and nomenclature is the first contribution whose value is present — a titled
UserValue with an absent value does not stop the scan.  Parts and Instances
both derive nomenclature by this rule from their owned UserData. -/
theorem claim6_nomenclature_first_present_value :
    (∀ uds, scanNomenclature uds = (uds.filterMap (fun ud =>
      (ud.user_values.find? (fun uv => uv.title == some "Nomenclature")).bind
        UserValue.value)).head?) ∧
    (∀ e p, Part.ofElement e = Except.ok p → p.nomenclature = scanNomenclature p.user_data) ∧
    (∀ e i, Instance.ofElement e = Except.ok i →
      i.nomenclature = scanNomenclature i.user_data) := by
  refine ⟨?_, ?_, ?_⟩
  · intro uds
    induction uds with
    | nil => rfl
    | cons ud rest ih =>
      unfold scanNomenclature
      rcases hfind : ud.user_values.find? (fun uv => uv.title == some "Nomenclature") with _ | uv
      · simp [List.filterMap_cons, hfind, ih]
      · rcases hval : uv.value with _ | v
        · simp [List.filterMap_cons, hfind, hval, ih]
        · simp [List.filterMap_cons, hfind, hval]
  · intro e p h
    unfold Part.ofElement at h
    rcases hf : exFoldlM partChildStep (none, [], none) e.children with m | acc <;> rw [hf] at h
    · exact absurd h (by simp)
    · obtain rfl := Except.ok.inj h
      rfl
  · intro e i h
    unfold Instance.ofElement at h
    rcases hiq : instanceQuantity e with m | q <;> rw [hiq] at h
    · exact absurd h (by simp)
    · rcases hf : exFoldlM instanceChildStep (none, []) e.children with m | acc <;>
        simp only [hf] at h
      · exact absurd h (by simp)
      · obtain rfl := Except.ok.inj h
        rfl

/-- Witness for C6 (amended): the edge-case Part's nomenclature is exactly
what `scanNomenclature` computes from its own UserData. -/
theorem claim6_nomenclature_first_present_value_witness :
    nomenclatureEdgePart.nomenclature = scanNomenclature nomenclatureEdgePart.user_data :=
  claim6_nomenclature_first_present_value.2.1 nomenclatureEdgeElem nomenclatureEdgePart rfl

/-- Claim C7: the registry equals one `add_to_map` pass over the registration
sequence (instances, parts, general objects, relations, then the CompoundReps
owned through each Part's Representation), and looking up `k` returns the most
recent entry of that sequence declaring the present, non-empty identifier `k` —
so earlier duplicate declarations are silently overwritten and nothing else is
ever registered. -/
theorem claim7_registry_contents_last_wins (g : InstanceGraph) (k : String) :
    buildMap g = add_to_map (fun _ => none) (regSeq g) ∧
    buildMap g k = (match (regSeq g).reverse.find? (regMatch k) with
      | some o => some o
      | none => none) := by
  have hb : buildMap g = add_to_map (fun _ => none) (regSeq g) := by
    unfold buildMap regSeq
    rw [add_to_map_reps, add_to_map_append, add_to_map_append, add_to_map_append,
      add_to_map_append]
  refine ⟨hb, ?_⟩
  rw [hb, add_to_map_lookup]

/-- Claim C8: the resolution pass is idempotent — running it a second time
over the same registry leaves every resolved link list unchanged, because it
replaces the lists from the unchanged raw reference strings. -/
theorem claim8_resolution_idempotent (reg : Registry) (g : InstanceGraph) :
    resolvePass reg (resolvePass reg g) = resolvePass reg g := by
  have hi : ∀ i : Instance, Instance.resolve reg (Instance.resolve reg i) =
      Instance.resolve reg i := by
    rintro ⟨i, pr, q, tr, ud, prs, nom⟩
    rcases pr with _ | s
    · rfl
    · unfold Instance.resolve
      by_cases hs : s = "" <;> simp [hs]
  have hr : ∀ r : Relation, Relation.resolve reg (Relation.resolve reg r) =
      Relation.resolve reg r := by
    rintro ⟨i, rr, st, ud, ro⟩
    rcases rr with _ | s
    · rfl
    · unfold Relation.resolve
      by_cases hs : s = "" <;> simp [hs]
  have hp : ∀ p : Part, Part.resolve reg (Part.resolve reg p) = Part.resolve reg p := by
    rintro ⟨i, n, rr, ir, r, ud, ta, co, nom⟩
    rcases ir with _ | s
    · rfl
    · unfold Part.resolve
      by_cases hs : s = "" <;> simp [hs]
  unfold resolvePass
  simp only [List.map_map]
  congr 1 <;> · rw [List.map_congr_left]
                intro x _
                simp only [Function.comp]
                first
                  | exact hi x
                  | exact hr x
                  | exact hp x

/-- Claim C9: a document whose InstanceGraph has no root-reference string
(absent or empty) is not an error: the hierarchical walk is empty — the walk
from an empty root list returns its state untouched — while the InstanceGraph
line and the flat trailing Relation list are still emitted. -/
theorem claim9_missing_root_refs_not_error (p : PLMXML) (g : InstanceGraph)
    (hg : p.product_def.bind ProductDef.instance_graph = some g)
    (hr : g.root_refs = none ∨ g.root_refs = some "") :
    output_as_brief p = Except.ok (pyJoin "\n"
      (headerLines p ++ ["InstanceGraph: rootRefs=" ++ pyStrOpt g.root_refs] ++
        g.relations.map relationLine)) ∧
    (∀ lines0 : List String, briefWalk g [] lines0 = Except.ok ⟨lines0, [], []⟩) := by
  have htr : pyTruthy g.root_refs = false := by
    rcases hr with hr | hr <;> rw [hr] <;> rfl
  refine ⟨?_, fun lines0 => rfl⟩
  unfold output_as_brief
  simp only [hg, htr, Bool.false_eq_true, if_false]
  have hw : briefWalk g []
      (headerLines p ++ ["InstanceGraph: rootRefs=" ++ pyStrOpt g.root_refs]) =
      Except.ok ⟨headerLines p ++ ["InstanceGraph: rootRefs=" ++ pyStrOpt g.root_refs],
        [], []⟩ := rfl
  rw [hw]

/-- Witness for C9: the rootless one-relation document renders as the
InstanceGraph line followed by the Relation line. -/
theorem claim9_missing_root_refs_not_error_witness :
    output_as_brief noRootsDoc = Except.ok (pyJoin "\n"
      (headerLines noRootsDoc ++ ["InstanceGraph: rootRefs=" ++ pyStrOpt none] ++
        noRootsGraph.relations.map relationLine)) :=
  (claim9_missing_root_refs_not_error noRootsDoc noRootsGraph rfl (Or.inl rfl)).1

/-- Claim C10: parsing a well-formed document whose root element has no
`schemaVersion` attribute never returns a Document — the numeric conversion of
the absent attribute raises, so the whole parse fails. -/
theorem claim10_missing_schema_version_fails (e : Element)
    (h : e.get "schemaVersion" = none) :
    ∃ msg, parse_plmxml e = Except.error msg := by
  refine ⟨"TypeError: float() argument must be a string or a real number, not NoneType", ?_⟩
  unfold parse_plmxml PLMXML.ofElement
  rw [h]

/-- Witness for C10: a concrete root element without `schemaVersion`. -/
theorem claim10_missing_schema_version_fails_witness :
    ∃ msg, parse_plmxml noSchemaVersionElem = Except.error msg :=
  claim10_missing_schema_version_fails noSchemaVersionElem rfl

end Plm
